import Mathlib

/-!
Verification of the file-sharing-system lambda handlers.

Shallow embedding of `src/backend/lambda/{upload,download,cleanup}/lambda_function.py`.
Python dynamic values are modelled by `PyVal`; ISO-8601 timestamp strings are
modelled by their parse behaviour (`TimeStr`); each S3 call's outcome is an
explicit input (`Cell` for keyed lookups, an attempt oracle for the retry
loops); every Python exception path is modelled as an explicit branch, so a
raised exception that the handler catches becomes the corresponding returned
response.  Times are integers (seconds); `datetime.isoformat` is the identity
on this abstraction and `timedelta(hours=24)` is 86400.
-/

namespace FileShare

/-- A Python/JSON value as it can appear in a request body or metadata field. -/
inductive PyVal where
  | vstr (s : String)
  | vint (n : Int)
  | vbool (b : Bool)
  | vnone
deriving DecidableEq, Repr

/-- Python truthiness of a value (`if not x` tests the negation of this). -/
def pyTruthy : PyVal → Bool
  | .vstr s => !s.isEmpty
  | .vint n => n != 0
  | .vbool b => b
  | .vnone => false

/-- Python `isinstance(x, int)`; `bool` is a subclass of `int` in Python. -/
def isInstInt : PyVal → Bool
  | .vint _ => true
  | .vbool _ => true
  | _ => false

/-- Python `str(x)` / f-string rendering of a value. -/
def pyStr : PyVal → String
  | .vstr s => s
  | .vint n => toString n
  | .vbool true => "True"
  | .vbool false => "False"
  | .vnone => "None"

/-- The integer value a `PyVal` has in an arithmetic comparison
(`bool` compares as 0/1; other cases cannot reach a comparison in the code). -/
def pyIntVal : PyVal → Int
  | .vint n => n
  | .vbool true => 1
  | _ => 0

/-- A string field that is fed to `datetime.fromisoformat`: either a string
parsing to timestamp `t`, or a string the parser raises on. -/
inductive TimeStr where
  | iso (t : Int)
  | notIso
deriving DecidableEq, Repr

/-- Model of `datetime.fromisoformat` applied to `metadata.get(...)`:
`none` means the Python call raises (`TypeError` on `None`, `ValueError` on a
non-ISO string), `some t` is a successful parse. -/
def fromisoformat : Option TimeStr → Option Int
  | some (.iso t) => some t
  | _ => none

/-- Body of an HTTP-style lambda response after `json.dumps`, as structured data. -/
inductive Body where
  | err (msg : String)
  | downloadOk (download_url : String) (filename : Option String)
      (content_type : Option String) (expiration_time : Option TimeStr)
  | uploadOk (file_id : String) (download_path : String) (expiration_time : Int)
  | cleanupOk (checked : Nat) (deleted : Nat)
deriving DecidableEq, Repr

/-- A lambda proxy response: status code plus JSON body (headers elided). -/
structure Response where
  statusCode : Nat
  body : Body
deriving DecidableEq, Repr

/-- The generic 500 response shared by the upload and download handlers
(`'An internal server error occurred'`). -/
def resp500 : Response := ⟨500, .err "An internal server error occurred"⟩

namespace Download

/-- The parsed `metadata.json` dictionary as read by the download handler:
`metadata.get` yields `None` for a missing field, hence the `Option`s. -/
structure MetaDict where
  original_filename : Option String
  content_type : Option String
  expiration_time : Option TimeStr
deriving DecidableEq, Repr

/-- What `json.loads` makes of a stored object's bytes: a metadata dictionary,
or bytes that `json.loads` raises on. -/
inductive StoredObj where
  | metaDict (m : MetaDict)
  | corrupt
deriving DecidableEq, Repr

/-- Observable state of one S3 key for this request: the object is present,
the key is absent (`NoSuchKey` / 404), or the store fails persistently on it
(a transient error that outlasts the retries, or any other `ClientError`),
in which case the Python S3 call raises. -/
inductive Cell where
  | present (o : StoredObj)
  | absent
  | failing
deriving DecidableEq, Repr

/-- An S3 bucket as observed by one request: each key maps to a `Cell`. -/
def Store : Type := String → Cell

/-- Outcome of `s3_get_with_retry(bucket, key)` at the store level:
`NoSuchKey` returns `None` with no retry, a present object is returned, and a
persistent failure raises (modelled as `Except.error`). -/
def s3_get_outcome (store : Store) (key : String) : Except Unit (Option StoredObj) :=
  match store key with
  | .present o => .ok (some o)
  | .absent => .ok none
  | .failing => .error ()

/-- Outcome of `s3_client.head_object(Bucket, Key)`: a present key returns the
(truthy) response dict, modelled as `true`; an absent key or a failing store
raises `ClientError` (modelled as `Except.error`). -/
def head_object (store : Store) (key : String) : Except Unit Bool :=
  match store key with
  | .present _ => .ok true
  | .absent => .error ()
  | .failing => .error ()

/-- Model of `is_file_expired(expiration_time)`: parse the field with
`fromisoformat` and compare with the current time; if the parse raises, the
item is treated as expired (`return True` in the handler's `except`). -/
def is_file_expired (now : Int) (expiration_time : Option TimeStr) : Bool :=
  match fromisoformat expiration_time with
  | some t => now > t
  | none => true

/-- Model of `generate_download_url(file_id, filename)`: the presigned URL is
scoped to the exact content key, which is all the claims observe about it. -/
def generate_download_url (file_id : String) (filename : String) : String :=
  file_id ++ "/" ++ filename

/-- Model of the download `lambda_handler`.  Inputs: the current time, the
store, `event['pathParameters']['file_id']` (`none` models the `KeyError`
path), and whether presigned-URL generation succeeds.  Every `except` clause
of the source appears as the corresponding returned response. -/
def lambda_handler (now : Int) (store : Store) (fid? : Option String)
    (presign_ok : Bool) : Response :=
  match fid? with
  | none =>
      ⟨400, .err ("Missing required parameter: " ++ "\x27file_id\x27")⟩
  | some file_id =>
      let metadata_key := file_id ++ "/metadata.json"
      match s3_get_outcome store metadata_key with
      | .error _ => resp500
      | .ok none => ⟨404, .err "File not found"⟩
      | .ok (some .corrupt) => resp500
      | .ok (some (.metaDict metadata)) =>
          if is_file_expired now metadata.expiration_time then
            ⟨404, .err "File has expired"⟩
          else
            let original_filename := metadata.original_filename
            let file_key := file_id ++ "/" ++
              (match original_filename with | some s => s | none => "None")
            match head_object store file_key with
            | .error _ => resp500
            | .ok file_exists_response =>
                if !file_exists_response then
                  ⟨404, .err "File content not found"⟩
                else if presign_ok then
                  ⟨200, .downloadOk
                    (generate_download_url file_id
                      (match original_filename with | some s => s | none => "None"))
                    original_filename metadata.content_type metadata.expiration_time⟩
                else resp500

end Download

namespace Upload

/-- `MAX_FILE_SIZE = 10 * 1024 * 1024` (10 MiB). -/
def MAX_FILE_SIZE : Int := 10 * 1024 * 1024

/-- `ALLOWED_CONTENT_TYPES`, copied from the source. -/
def ALLOWED_CONTENT_TYPES : List String :=
  ["image/jpeg", "image/png", "image/gif", "image/webp",
   "application/pdf", "application/msword",
   "application/vnd.openxmlformats-officedocument.wordprocessingml.document",
   "text/plain", "text/csv", "application/zip", "application/x-zip-compressed",
   "application/vnd.ms-excel",
   "application/vnd.openxmlformats-officedocument.spreadsheetml.sheet",
   "application/vnd.ms-powerpoint",
   "application/vnd.openxmlformats-officedocument.presentationml.presentation",
   "video/mp4", "video/quicktime", "audio/mpeg", "audio/mp4"]

/-- Python `content_type in ALLOWED_CONTENT_TYPES`: only a string equal to a
list element matches (a non-string value is in no list of strings). -/
def inAllowedContentTypes : PyVal → Bool
  | .vstr s => ALLOWED_CONTENT_TYPES.contains s
  | _ => false

/-- The three fields `body.get(...)` reads; `vnone` models both a JSON `null`
and an absent key (`dict.get` returns `None` for both). -/
structure ReqBody where
  filename : PyVal
  content_type : PyVal
  file_size : PyVal
deriving DecidableEq, Repr

/-- `event.get('body')` as the handler's first line sees it: a string that
`json.loads` parses to an object, a string `json.loads` raises on, an already
deserialized object, or absent (which defaults to `{}`, i.e. all gets `None`). -/
inductive EventBody where
  | strGood (b : ReqBody)
  | strBad
  | dict (b : ReqBody)
  | missing
deriving DecidableEq, Repr

/-- The metadata JSON document the handler writes at `{file_id}/metadata.json`
(timestamps abstracted to their integer value; `file_size` stored via `str`). -/
structure MetaRecord where
  original_filename : PyVal
  content_type : PyVal
  expiration_time : Int
  upload_time : Int
  file_size : String
deriving DecidableEq, Repr

/-- A successful S3 put performed by the handler: key and stored document. -/
structure Write where
  key : String
  record : MetaRecord
deriving DecidableEq, Repr

/-- Non-deterministic inputs of one upload invocation: the event body, the
freshly minted `uuid4` value, the successive `datetime.utcnow()` readings
(read 0 is `request_time`, read 1 the expiration computation, read 2 the
`upload_time` field), whether `s3_put_with_retry` succeeds (a raise performs
no write), and whether presigned-POST generation succeeds. -/
structure Env where
  event_body : EventBody
  file_id : String
  clock : Nat → Int
  put_ok : Bool
  presign_ok : Bool

/-- The body of the upload `lambda_handler` after the request body has been
deserialized to `body`.  Validation checks appear in source order; each
`return` is the corresponding response, paired with the list of S3 writes
performed up to that point. -/
def handle_body (env : Env) (body : ReqBody) : Response × List Write :=
  let filename := body.filename
  let content_type := body.content_type
  let file_size := body.file_size
  if !pyTruthy filename then
    (⟨400, .err "Filename is required"⟩, [])
  else if !pyTruthy content_type then
    (⟨400, .err "Content type is required"⟩, [])
  else if !pyTruthy file_size || !isInstInt file_size then
    (⟨400, .err "Valid file size is required"⟩, [])
  else if pyIntVal file_size > MAX_FILE_SIZE then
    (⟨400, .err "File size exceeds the maximum limit of 10.0MB"⟩, [])
  else if !inAllowedContentTypes content_type then
    (⟨400, .err ("Content type " ++ pyStr content_type ++ " is not allowed")⟩, [])
  else
    let file_id := env.file_id
    let expiration_timestamp := env.clock 1 + 86400
    let metadata : MetaRecord :=
      ⟨filename, content_type, expiration_timestamp, env.clock 2, pyStr file_size⟩
    if !env.put_ok then
      (resp500, [])
    else
      let writes := [Write.mk (file_id ++ "/metadata.json") metadata]
      if !env.presign_ok then
        (resp500, writes)
      else
        (⟨200, .uploadOk file_id ("/download/" ++ file_id) expiration_timestamp⟩,
         writes)

/-- Model of the upload `lambda_handler`: deserialize the event body (a parse
failure raises and is caught by the outer `except`, giving the generic 500),
then run the validation/write sequence. -/
def lambda_handler (env : Env) : Response × List Write :=
  match env.event_body with
  | .strBad => (resp500, [])
  | .strGood b => handle_body env b
  | .dict b => handle_body env b
  | .missing => handle_body env ⟨.vnone, .vnone, .vnone⟩

end Upload

namespace Cleanup

/-- What the per-item `try` block observes for one item's `metadata.json`.
Every constructor except `exp` makes some statement inside the `try` raise,
and the exception is caught by the per-item `except` (skip and continue):
`absent` (get raises `NoSuchKey`), `unreadable` (read/decode/`json.loads`
raises), `noExpField` (`metadata['expiration_time']` raises `KeyError`),
`badExpField` (`fromisoformat` raises). -/
inductive MetaCell where
  | absent
  | unreadable
  | noExpField
  | badExpField
  | exp (t : Int)
deriving DecidableEq, Repr

/-- One top-level identifier prefix the sweep visits: its id, the state of its
metadata record, and the keys `list_objects_v2` enumerates under `fid/`. -/
structure SweepItem where
  fid : String
  meta : MetaCell
  keys : List String
deriving DecidableEq, Repr

/-- The keys the sweep deletes for one item: the item's full key set when its
metadata parses and is expired, nothing otherwise. -/
def item_deletes (now : Int) (it : SweepItem) : List String :=
  match it.meta with
  | .exp t => if now > t then it.keys else []
  | _ => []

/-- The sweep loop over the listed prefixes, carrying `checked_count`,
`deleted_count` and the accumulated deleted keys.  A per-item exception is
caught (`except` inside the loop), so the fold always continues with the
rest of the list. -/
def sweep_go (now : Int) :
    List SweepItem → Nat → Nat → List String → Nat × Nat × List String
  | [], checked, deleted, dels => (checked, deleted, dels)
  | it :: rest, checked, deleted, dels =>
      let checked := checked + 1
      match it.meta with
      | .exp t =>
          if now > t then
            let objects_to_delete := it.keys
            if objects_to_delete.isEmpty then
              sweep_go now rest checked deleted dels
            else
              sweep_go now rest checked (deleted + 1) (dels ++ objects_to_delete)
          else sweep_go now rest checked deleted dels
      | _ => sweep_go now rest checked deleted dels

/-- Model of the cleanup `lambda_handler`.  `listFail` carries the message of
a sweep-level exception (pagination failure, etc.); the outer `except` turns
it into a 500 whose body interpolates `str(e)`.  Otherwise the sweep runs to
completion and reports counts.  The second component is the list of keys the
sweep deleted from the store. -/
def lambda_handler (now : Int) (items : List SweepItem)
    (listFail : Option String) : Response × List String :=
  match listFail with
  | some msg => (⟨500, .err ("An error occurred: " ++ msg)⟩, [])
  | none =>
      let r := sweep_go now items 0 0 []
      (⟨200, .cleanupOk r.1 r.2.1⟩, r.2.2)

end Cleanup

namespace Retry

/-- Outcome of one raw S3 call inside the retry loop: success, a
`ClientError` with an error code, or a non-`ClientError` exception. -/
inductive S3Attempt where
  | ok
  | clientErr (code : String)
  | otherExc
deriving DecidableEq, Repr

/-- The transient error classes retried by both wrappers. -/
def transient (code : String) : Bool :=
  code == "SlowDown" || code == "InternalError" || code == "ServiceUnavailable"

/-- How a retry-wrapped call finishes: value returned (the response for get,
`True` for put), `None` returned by get on `NoSuchKey`, a `ClientError`
propagated by `raise`, a non-`ClientError` propagated, or the `while` loop
exiting so the Python function falls through returning `None`. -/
inductive RetryResult where
  | got
  | gotNone
  | raised (code : String)
  | raisedOther
  | fellThrough
deriving DecidableEq, Repr

/-- Trace of a retry-wrapped call: final result, number of raw S3 attempts
made, and the `time.sleep` durations executed between attempts, in order. -/
structure RetryTrace where
  result : RetryResult
  attempts : Nat
  sleeps : List Nat
deriving DecidableEq, Repr

/-- The `while retries < max_retries` loop of `s3_get_with_retry`, with the
k-th raw attempt's outcome given by `env k` (the loop makes exactly one raw
attempt per iteration, so the attempt index equals `retries`). -/
def s3_get_loop (env : Nat → S3Attempt) (max_retries retries : Nat)
    (sleeps : List Nat) : RetryTrace :=
  if _h : retries < max_retries then
    match env retries with
    | .ok => ⟨.got, retries + 1, sleeps⟩
    | .otherExc => ⟨.raisedOther, retries + 1, sleeps⟩
    | .clientErr code =>
        if code == "NoSuchKey" then ⟨.gotNone, retries + 1, sleeps⟩
        else if transient code then
          if retries + 1 < max_retries then
            s3_get_loop env max_retries (retries + 1) (sleeps ++ [2 ^ (retries + 1)])
          else ⟨.raised code, retries + 1, sleeps⟩
        else ⟨.raised code, retries + 1, sleeps⟩
  else ⟨.fellThrough, retries, sleeps⟩
termination_by max_retries - retries

/-- `MAX_RETRIES = 3`, shared by both wrappers. -/
def MAX_RETRIES : Nat := 3

/-- `s3_get_with_retry(bucket, key)` with the default retry bound. -/
def s3_get_with_retry (env : Nat → S3Attempt) : RetryTrace :=
  s3_get_loop env MAX_RETRIES 0 []

/-- The `while` loop of `s3_put_with_retry`: identical to the get loop except
that there is no `NoSuchKey` special case (a non-transient `ClientError` of
any code is raised). -/
def s3_put_loop (env : Nat → S3Attempt) (max_retries retries : Nat)
    (sleeps : List Nat) : RetryTrace :=
  if _h : retries < max_retries then
    match env retries with
    | .ok => ⟨.got, retries + 1, sleeps⟩
    | .otherExc => ⟨.raisedOther, retries + 1, sleeps⟩
    | .clientErr code =>
        if transient code then
          if retries + 1 < max_retries then
            s3_put_loop env max_retries (retries + 1) (sleeps ++ [2 ^ (retries + 1)])
          else ⟨.raised code, retries + 1, sleeps⟩
        else ⟨.raised code, retries + 1, sleeps⟩
  else ⟨.fellThrough, retries, sleeps⟩
termination_by max_retries - retries

/-- `s3_put_with_retry(...)` with the default retry bound. -/
def s3_put_with_retry (env : Nat → S3Attempt) : RetryTrace :=
  s3_put_loop env MAX_RETRIES 0 []

end Retry

/-! Concrete stores and environments used as witnesses and counterexamples. -/

/-- A metadata dictionary whose expiration parses to time 0. -/
def mdAt0 : Download.MetaDict := ⟨some "a.txt", some "text/plain", some (.iso 0)⟩

/-- A metadata dictionary whose expiration parses to time 100. -/
def mdAt100 : Download.MetaDict := ⟨some "a.txt", some "text/plain", some (.iso 100)⟩

/-- A metadata dictionary whose expiration field does not parse. -/
def mdBadExp : Download.MetaDict := ⟨some "a.txt", some "text/plain", some .notIso⟩

/-- Store holding only the metadata record of item `f`, expiring at time 0;
no content object and no other item. -/
def storeExpiredOnly : Download.Store := fun k =>
  if k == "f/metadata.json" then .present (.metaDict mdAt0) else .absent

/-- Store holding only the metadata record of item `f`, expiring at time 100;
the content key `f/a.txt` is absent. -/
def storeMetaNoContent : Download.Store := fun k =>
  if k == "f/metadata.json" then .present (.metaDict mdAt100) else .absent

/-- Store holding metadata (expiring at 100) and content for item `f`. -/
def storeComplete : Download.Store := fun k =>
  if k == "f/metadata.json" then .present (.metaDict mdAt100)
  else if k == "f/a.txt" then .present .corrupt
  else .absent

/-- Store whose only item `f` has an unparseable expiration field and a
present content object. -/
def storeBadExp : Download.Store := fun k =>
  if k == "f/metadata.json" then .present (.metaDict mdBadExp)
  else if k == "f/a.txt" then .present .corrupt
  else .absent

/-- C1 counterexample input: at time 1 item `f` of `storeExpiredOnly` is past
its expiration (0), and item `g` has no metadata record. -/
theorem download_expired_body_differs_from_missing :
    Download.lambda_handler 1 storeExpiredOnly (some "f") true =
      ⟨404, .err "File has expired"⟩ ∧
    Download.lambda_handler 1 storeExpiredOnly (some "g") true =
      ⟨404, .err "File not found"⟩ ∧
    Body.err "File has expired" ≠ Body.err "File not found" := by
  decide

/-- C1 (amended): a download of an item whose metadata has a parseable,
past expiration gets status 404 like a missing item, but with the distinct
body `File has expired`, while a missing metadata record gets `File not
found` — so an expired item is distinguishable from a missing one by the
response body (only the status code coincides). -/
theorem download_expired_distinct_404 (now : Int) (store : Download.Store)
    (fid fid2 : String) (m : Download.MetaDict) (t : Int) (pres : Bool)
    (hm : store (fid ++ "/metadata.json") = .present (.metaDict m))
    (ht : fromisoformat m.expiration_time = some t)
    (hpast : now > t)
    (hm2 : store (fid2 ++ "/metadata.json") = .absent) :
    Download.lambda_handler now store (some fid) pres =
      ⟨404, .err "File has expired"⟩ ∧
    Download.lambda_handler now store (some fid2) pres =
      ⟨404, .err "File not found"⟩ ∧
    Body.err "File has expired" ≠ Body.err "File not found" := by
  refine ⟨?_, ?_, by decide⟩
  · simp [Download.lambda_handler, Download.s3_get_outcome, hm,
      Download.is_file_expired, ht, hpast]
  · simp [Download.lambda_handler, Download.s3_get_outcome, hm2]

/-- Witness for `download_expired_distinct_404` at time 1 on
`storeExpiredOnly` (item `f` expired at 0, item `g` missing). -/
theorem download_expired_distinct_404_witness :
    Download.lambda_handler 1 storeExpiredOnly (some "f") true =
      ⟨404, .err "File has expired"⟩ ∧
    Download.lambda_handler 1 storeExpiredOnly (some "g") true =
      ⟨404, .err "File not found"⟩ ∧
    Body.err "File has expired" ≠ Body.err "File not found" :=
  download_expired_distinct_404 1 storeExpiredOnly "f" "g" mdAt0 0 true
    (by decide) (by decide) (by decide) (by decide)

/-- C2: with a metadata record present and unexpired (time 0 < expiration
100) but the content object absent at the derived key `f/a.txt`, the handler
returns the generic 500, not the distinct 404 `File content not found`:
`head_object` raises `ClientError` on an absent key, the exception reaches
the generic `except`, and the `if not file_exists_response` branch carrying
`File content not found` is unreachable. -/
theorem download_content_absent_is_500 :
    Download.lambda_handler 0 storeMetaNoContent (some "f") true = resp500 ∧
    resp500 = ⟨500, .err "An internal server error occurred"⟩ ∧
    Body.err "An internal server error occurred" ≠
      Body.err "File content not found" := by
  decide

/-- C7: a metadata record whose expiration field fails to parse (via
`fromisoformat`) is treated as expired: the handler responds 404, serving
nothing and raising no server error. -/
theorem download_unparseable_expiration_404 (now : Int)
    (store : Download.Store) (fid : String) (m : Download.MetaDict)
    (pres : Bool)
    (hm : store (fid ++ "/metadata.json") = .present (.metaDict m))
    (hbad : fromisoformat m.expiration_time = none) :
    Download.lambda_handler now store (some fid) pres =
      ⟨404, .err "File has expired"⟩ ∧
    (Download.lambda_handler now store (some fid) pres).statusCode = 404 := by
  have h : Download.lambda_handler now store (some fid) pres =
      ⟨404, .err "File has expired"⟩ := by
    simp [Download.lambda_handler, Download.s3_get_outcome, hm,
      Download.is_file_expired, hbad]
  exact ⟨h, by rw [h]⟩

/-- Witness for `download_unparseable_expiration_404` on `storeBadExp`. -/
theorem download_unparseable_expiration_404_witness :
    Download.lambda_handler 5 storeBadExp (some "f") true =
      ⟨404, .err "File has expired"⟩ ∧
    (Download.lambda_handler 5 storeBadExp (some "f") true).statusCode = 404 :=
  download_unparseable_expiration_404 5 storeBadExp "f" mdBadExp true
    (by decide) (by decide)

/-- Helper: once the event body deserializes to `b`, the upload handler is
`handle_body`. -/
theorem upload_handler_eq_handle_body (env : Upload.Env) (b : Upload.ReqBody)
    (hb : env.event_body = .strGood b ∨ env.event_body = .dict b) :
    Upload.lambda_handler env = Upload.handle_body env b := by
  rcases hb with h | h <;> simp [Upload.lambda_handler, h]

/-- C3: the five upload validation checks run in source order — filename
present, content_type present, file_size present and `isinstance(int)`,
file_size within bound, content_type allowed — the first failing check
returns its 400 response, and every validation failure happens with an empty
write list; in particular an oversized file_size or a disallowed
content_type always yields a 400 with no metadata write. -/
theorem upload_validation_order_no_write (env : Upload.Env)
    (b : Upload.ReqBody)
    (hb : env.event_body = .strGood b ∨ env.event_body = .dict b) :
    (pyTruthy b.filename = false →
       Upload.lambda_handler env = (⟨400, .err "Filename is required"⟩, [])) ∧
    (pyTruthy b.filename = true → pyTruthy b.content_type = false →
       Upload.lambda_handler env =
         (⟨400, .err "Content type is required"⟩, [])) ∧
    (pyTruthy b.filename = true → pyTruthy b.content_type = true →
       (pyTruthy b.file_size = false ∨ isInstInt b.file_size = false) →
       Upload.lambda_handler env =
         (⟨400, .err "Valid file size is required"⟩, [])) ∧
    (pyTruthy b.filename = true → pyTruthy b.content_type = true →
       pyTruthy b.file_size = true → isInstInt b.file_size = true →
       pyIntVal b.file_size > Upload.MAX_FILE_SIZE →
       Upload.lambda_handler env =
         (⟨400, .err "File size exceeds the maximum limit of 10.0MB"⟩, [])) ∧
    (pyTruthy b.filename = true → pyTruthy b.content_type = true →
       pyTruthy b.file_size = true → isInstInt b.file_size = true →
       ¬ pyIntVal b.file_size > Upload.MAX_FILE_SIZE →
       Upload.inAllowedContentTypes b.content_type = false →
       Upload.lambda_handler env =
         (⟨400, .err ("Content type " ++ pyStr b.content_type ++
            " is not allowed")⟩, [])) ∧
    (isInstInt b.file_size = true →
       pyIntVal b.file_size > Upload.MAX_FILE_SIZE →
       (Upload.lambda_handler env).1.statusCode = 400 ∧
       (Upload.lambda_handler env).2 = []) ∧
    (Upload.inAllowedContentTypes b.content_type = false →
       (Upload.lambda_handler env).1.statusCode = 400 ∧
       (Upload.lambda_handler env).2 = []) := by
  rw [upload_handler_eq_handle_body env b hb]
  refine ⟨?_, ?_, ?_, ?_, ?_, ?_, ?_⟩
  · intro h1
    simp [Upload.handle_body, h1]
  · intro h1 h2
    simp [Upload.handle_body, h1, h2]
  · intro h1 h2 h3
    rcases h3 with h3 | h3 <;> simp [Upload.handle_body, h1, h2, h3]
  · intro h1 h2 h3 h4 h5
    simp [Upload.handle_body, h1, h2, h3, h4, h5]
  · intro h1 h2 h3 h4 h5 h6
    simp [Upload.handle_body, h1, h2, h3, h4, h5, h6]
  · intro h1 h2
    by_cases hf : pyTruthy b.filename
    · by_cases hc : pyTruthy b.content_type
      · by_cases hs : pyTruthy b.file_size
        · simp [Upload.handle_body, hf, hc, hs, h1, h2]
        · simp [Upload.handle_body, hf, hc, hs]
      · simp [Upload.handle_body, hf, hc]
    · simp [Upload.handle_body, hf]
  · intro h1
    by_cases hf : pyTruthy b.filename
    · by_cases hc : pyTruthy b.content_type
      · by_cases hs : pyTruthy b.file_size
        · by_cases hi : isInstInt b.file_size
          · by_cases hm : pyIntVal b.file_size > Upload.MAX_FILE_SIZE
            · simp [Upload.handle_body, hf, hc, hs, hi, hm]
            · simp [Upload.handle_body, hf, hc, hs, hi, hm, h1]
          · simp [Upload.handle_body, hf, hc, hs, hi]
        · simp [Upload.handle_body, hf, hc, hs]
      · simp [Upload.handle_body, hf, hc]
    · simp [Upload.handle_body, hf]

/-- Environment for an upload request whose body has no filename. -/
def envNoName : Upload.Env :=
  ⟨.dict ⟨.vnone, .vstr "text/plain", .vint 100⟩, "id1", fun _ => 0,
   true, true⟩

/-- Witness for `upload_validation_order_no_write` on a body with a missing
filename. -/
theorem upload_validation_order_no_write_witness :
    Upload.lambda_handler envNoName = (⟨400, .err "Filename is required"⟩, []) :=
  (upload_validation_order_no_write envNoName
    ⟨.vnone, .vstr "text/plain", .vint 100⟩ (Or.inr rfl)).1 (by decide)

/-- Environment for an upload request carrying `file_size = -2` with all
other fields valid. -/
def envC3Neg : Upload.Env :=
  ⟨.dict ⟨.vstr "b.txt", .vstr "text/plain", .vint (-2)⟩, "id2", fun _ => 0,
   true, true⟩

/-- C3 counterexample: the claimed third validation check is `file_size
present and positive integer`, under which `file_size = -2` must be rejected
with a 400 and no metadata write; but the code's check `not file_size or not
isinstance(file_size, int)` accepts the negative integer, and the handler
answers 200 after writing the metadata record. -/
theorem upload_claimed_positive_check_fails :
    (-2 : Int) < 0 ∧
    (Upload.lambda_handler envC3Neg).1.statusCode = 200 ∧
    (Upload.lambda_handler envC3Neg).2 ≠ [] := by
  decide

/-- Environment for an upload request carrying `file_size = -1`. -/
def envNegSize : Upload.Env :=
  ⟨.dict ⟨.vstr "a.txt", .vstr "text/plain", .vint (-1)⟩, "id1", fun _ => 0,
   true, true⟩

/-- C4 counterexample: a request with the negative integer `file_size = -1`
passes `not file_size or not isinstance(file_size, int)` (nonzero, an int)
and, being below the maximum, passes the size bound too — the handler
answers 200 and writes the metadata record, instead of rejecting with 400
before any side effect. -/
theorem upload_negative_size_accepted :
    (Upload.lambda_handler envNegSize).1.statusCode = 200 ∧
    (Upload.lambda_handler envNegSize).2 ≠ [] := by
  decide

/-- C4 (amended): the file_size validation rejects exactly the values that
are Python-falsy (missing/`None`, `0`, `False`, etc.) or not an
`isinstance(..., int)`, with a 400 and no write; a negative integer
file_size is accepted and the request proceeds to a 200 with a metadata
write. -/
theorem upload_file_size_validation (env : Upload.Env) (b : Upload.ReqBody)
    (n : Int)
    (hb : env.event_body = .strGood b ∨ env.event_body = .dict b)
    (hfn : pyTruthy b.filename = true)
    (hct : pyTruthy b.content_type = true) :
    ((pyTruthy b.file_size = false ∨ isInstInt b.file_size = false) →
       Upload.lambda_handler env =
         (⟨400, .err "Valid file size is required"⟩, [])) ∧
    (b.file_size = .vint n → n < 0 →
       Upload.inAllowedContentTypes b.content_type = true →
       env.put_ok = true → env.presign_ok = true →
       (Upload.lambda_handler env).1.statusCode = 200 ∧
       (Upload.lambda_handler env).2 ≠ []) := by
  rw [upload_handler_eq_handle_body env b hb]
  constructor
  · intro h3
    rcases h3 with h3 | h3 <;> simp [Upload.handle_body, hfn, hct, h3]
  · intro hv hneg hallow hput hpres
    have hne : n ≠ 0 := by omega
    have hs : pyTruthy b.file_size = true := by simp [hv, pyTruthy, hne]
    have hi : isInstInt b.file_size = true := by simp [hv, isInstInt]
    have hle : ¬ pyIntVal b.file_size > Upload.MAX_FILE_SIZE := by
      simp [hv, pyIntVal, Upload.MAX_FILE_SIZE]
      omega
    simp [Upload.handle_body, hfn, hct, hs, hi, hle, hallow, hput, hpres]

/-- Witness for `upload_file_size_validation`: zero file_size is rejected. -/
theorem upload_file_size_validation_witness :
    Upload.lambda_handler
      ⟨.dict ⟨.vstr "a.txt", .vstr "text/plain", .vint 0⟩, "id1", fun _ => 0,
       true, true⟩ =
      (⟨400, .err "Valid file size is required"⟩, []) :=
  (upload_file_size_validation
    ⟨.dict ⟨.vstr "a.txt", .vstr "text/plain", .vint 0⟩, "id1", fun _ => 0,
     true, true⟩
    ⟨.vstr "a.txt", .vstr "text/plain", .vint 0⟩ (-1) (Or.inr rfl)
    (by decide) (by decide)).1 (Or.inl (by decide))

/-- Environment whose clock advances by one second between the expiration
computation (read 1) and the `upload_time` reading (read 2). -/
def envClockSkew : Upload.Env :=
  ⟨.dict ⟨.vstr "a.txt", .vstr "text/plain", .vint 100⟩, "id1",
   (fun i => if i == 2 then 1 else 0), true, true⟩

/-- C9 counterexample: `expiration_time` and `upload_time` come from two
separate `utcnow()` calls; when the clock advances between them the stored
record has `expiration_time` (86400, from the first call) different from
`upload_time + 24h` (1 + 86400, from the second). -/
theorem upload_expiration_skew :
    (Upload.lambda_handler envClockSkew).2 =
      [⟨"id1/metadata.json",
        ⟨.vstr "a.txt", .vstr "text/plain", 86400, 1, "100"⟩⟩] ∧
    (86400 : Int) ≠ 1 + 86400 := by
  decide

/-- C9 (amended): a successful upload writes exactly one metadata record, at
`{file_id}/metadata.json`, whose `expiration_time` is the clock value at the
expiration computation plus 24h and whose `upload_time` is a separately read
(later) clock value, and the response carries the very same
`expiration_time`; `expiration_time = upload_time + 24h` holds exactly when
the two clock reads coincide. -/
theorem upload_expiration_metadata (env : Upload.Env) (b : Upload.ReqBody)
    (hb : env.event_body = .strGood b ∨ env.event_body = .dict b)
    (hfn : pyTruthy b.filename = true)
    (hct : pyTruthy b.content_type = true)
    (hfs : pyTruthy b.file_size = true)
    (hint : isInstInt b.file_size = true)
    (hsz : ¬ pyIntVal b.file_size > Upload.MAX_FILE_SIZE)
    (hallow : Upload.inAllowedContentTypes b.content_type = true)
    (hput : env.put_ok = true) (hpres : env.presign_ok = true) :
    Upload.lambda_handler env =
      (⟨200, .uploadOk env.file_id ("/download/" ++ env.file_id)
          (env.clock 1 + 86400)⟩,
       [⟨env.file_id ++ "/metadata.json",
         ⟨b.filename, b.content_type, env.clock 1 + 86400, env.clock 2,
          pyStr b.file_size⟩⟩]) ∧
    (env.clock 1 = env.clock 2 →
       env.clock 1 + 86400 = env.clock 2 + 86400) := by
  rw [upload_handler_eq_handle_body env b hb]
  constructor
  · simp [Upload.handle_body, hfn, hct, hfs, hint, hsz, hallow, hput, hpres]
  · intro h
    rw [h]

/-- Witness for `upload_expiration_metadata` with a clock that does not
advance: the record then satisfies `expiration_time = upload_time + 24h`. -/
theorem upload_expiration_metadata_witness :
    Upload.lambda_handler
      ⟨.dict ⟨.vstr "a.txt", .vstr "text/plain", .vint 100⟩, "id1",
       fun _ => 0, true, true⟩ =
      (⟨200, .uploadOk "id1" "/download/id1" 86400⟩,
       [⟨"id1/metadata.json",
         ⟨.vstr "a.txt", .vstr "text/plain", 86400, 0, "100"⟩⟩]) := by
  have h := (upload_expiration_metadata
    ⟨.dict ⟨.vstr "a.txt", .vstr "text/plain", .vint 100⟩, "id1",
     fun _ => 0, true, true⟩
    ⟨.vstr "a.txt", .vstr "text/plain", .vint 100⟩ (Or.inr rfl)
    (by decide) (by decide) (by decide) (by decide) (by decide) (by decide)
    (by decide) (by decide)).1
  exact h.trans (by decide)

/-- Whether the sweep's `deleted_count` counts an item: its key set is
deleted and nonempty. -/
def item_counted (now : Int) (it : Cleanup.SweepItem) : Bool :=
  !(Cleanup.item_deletes now it).isEmpty

/-- Helper: closed form of the sweep fold — it visits every item, counts all
of them, and accumulates exactly each item's deleted key set in order. -/
theorem sweep_go_spec (now : Int) (items : List Cleanup.SweepItem) :
    ∀ (c d : Nat) (acc : List String),
      Cleanup.sweep_go now items c d acc =
        (c + items.length,
         d + items.countP (item_counted now),
         acc ++ (items.map (Cleanup.item_deletes now)).flatten) := by
  induction items with
  | nil => intro c d acc; simp [Cleanup.sweep_go]
  | cons it rest ih =>
      intro c d acc
      cases hm : it.meta with
      | exp t =>
          by_cases hx : now > t
          · by_cases he : it.keys.isEmpty
            · simp [Cleanup.sweep_go, hm, hx, he, ih, List.countP_cons,
                item_counted, Cleanup.item_deletes,
                List.isEmpty_iff.mp he, Nat.add_assoc, Nat.add_comm 1]
            · have he' : it.keys.isEmpty = false := by
                revert he; cases it.keys.isEmpty <;> simp
              have hstep : Cleanup.sweep_go now (it :: rest) c d acc =
                  Cleanup.sweep_go now rest (c + 1) (d + 1)
                    (acc ++ it.keys) := by
                simp [Cleanup.sweep_go, hm, hx, he']
              have hdel : Cleanup.item_deletes now it = it.keys := by
                simp [Cleanup.item_deletes, hm, hx]
              have hcnt : item_counted now it = true := by
                simp [item_counted, hdel, he']
              rw [hstep, ih]
              simp [Prod.mk.injEq, List.countP_cons, hcnt, hdel,
                List.append_assoc, Nat.add_assoc, Nat.add_comm 1]
          · simp [Cleanup.sweep_go, hm, hx, ih, List.countP_cons,
              item_counted, Cleanup.item_deletes, Nat.add_assoc,
              Nat.add_comm 1]
      | absent =>
          simp [Cleanup.sweep_go, hm, ih, List.countP_cons, item_counted,
            Cleanup.item_deletes, Nat.add_assoc, Nat.add_comm 1]
      | unreadable =>
          simp [Cleanup.sweep_go, hm, ih, List.countP_cons, item_counted,
            Cleanup.item_deletes, Nat.add_assoc, Nat.add_comm 1]
      | noExpField =>
          simp [Cleanup.sweep_go, hm, ih, List.countP_cons, item_counted,
            Cleanup.item_deletes, Nat.add_assoc, Nat.add_comm 1]
      | badExpField =>
          simp [Cleanup.sweep_go, hm, ih, List.countP_cons, item_counted,
            Cleanup.item_deletes, Nat.add_assoc, Nat.add_comm 1]

/-- Helper: membership in one item's deleted key set. -/
theorem mem_item_deletes (now : Int) (it : Cleanup.SweepItem) (k : String) :
    k ∈ Cleanup.item_deletes now it ↔
      (∃ t, it.meta = .exp t ∧ now > t) ∧ k ∈ it.keys := by
  cases hm : it.meta with
  | absent => simp [Cleanup.item_deletes, hm]
  | unreadable => simp [Cleanup.item_deletes, hm]
  | noExpField => simp [Cleanup.item_deletes, hm]
  | badExpField => simp [Cleanup.item_deletes, hm]
  | exp t => by_cases hx : now > t <;> simp [Cleanup.item_deletes, hm, hx]

/-- C5: one sweep deletes exactly the full key sets of the items whose
metadata parses to a past expiration (every key it deletes belongs to such
an item and every key of such an item is deleted; keys of unexpired items
are untouched), it visits and counts every listed item, and an item whose
metadata is absent, unreadable or unparseable contributes nothing and does
not prevent the rest of the list from being processed (removing such an
item leaves the deleted key set unchanged). -/
theorem cleanup_sweep_exact (now : Int) (items : List Cleanup.SweepItem) :
    (Cleanup.lambda_handler now items none).2 =
      (items.map (Cleanup.item_deletes now)).flatten ∧
    (∀ k, k ∈ (Cleanup.lambda_handler now items none).2 ↔
       ∃ it ∈ items, (∃ t, it.meta = .exp t ∧ now > t) ∧ k ∈ it.keys) ∧
    (Cleanup.lambda_handler now items none).1 =
      ⟨200, .cleanupOk items.length (items.countP (item_counted now))⟩ ∧
    (∀ pre post (bad : Cleanup.SweepItem),
       items = pre ++ bad :: post → (∀ t, bad.meta ≠ .exp t) →
       (Cleanup.lambda_handler now items none).2 =
         (Cleanup.lambda_handler now (pre ++ post) none).2) := by
  have hrun : ∀ l : List Cleanup.SweepItem,
      Cleanup.lambda_handler now l none =
        (⟨200, .cleanupOk l.length (l.countP (item_counted now))⟩,
         (l.map (Cleanup.item_deletes now)).flatten) := by
    intro l
    simp [Cleanup.lambda_handler, sweep_go_spec]
  refine ⟨by rw [hrun], ?_, by rw [hrun], ?_⟩
  · intro k
    rw [hrun]
    simp only [List.mem_flatten, List.mem_map]
    constructor
    · rintro ⟨ks, ⟨it, hit, rfl⟩, hk⟩
      exact ⟨it, hit, (mem_item_deletes now it k).mp hk⟩
    · rintro ⟨it, hit, hx, hk⟩
      exact ⟨Cleanup.item_deletes now it, ⟨it, hit, rfl⟩,
        (mem_item_deletes now it k).mpr ⟨hx, hk⟩⟩
  · rintro pre post bad rfl hbad
    rw [hrun, hrun]
    have hnil : Cleanup.item_deletes now bad = [] := by
      cases hm : bad.meta with
      | exp t => exact absurd hm (hbad t)
      | absent => simp [Cleanup.item_deletes, hm]
      | unreadable => simp [Cleanup.item_deletes, hm]
      | noExpField => simp [Cleanup.item_deletes, hm]
      | badExpField => simp [Cleanup.item_deletes, hm]
    simp [hnil]

/-- A four-item sweep input: `a` expired at 0, `b` with unreadable metadata,
`c` expiring at 100, `d` expired at 1. -/
def sweepItems : List Cleanup.SweepItem :=
  [⟨"a", .exp 0, ["a/metadata.json", "a/x.bin"]⟩,
   ⟨"b", .unreadable, ["b/metadata.json", "b/y.bin"]⟩,
   ⟨"c", .exp 100, ["c/metadata.json", "c/z.bin"]⟩,
   ⟨"d", .exp 1, ["d/metadata.json"]⟩]

/-- Witness for `cleanup_sweep_exact` at time 5 on `sweepItems`: exactly the
keys of `a` and `d` are deleted, all four items are checked, and the
unreadable item `b` does not stop the sweep. -/
theorem cleanup_sweep_exact_witness :
    (Cleanup.lambda_handler 5 sweepItems none).2 =
      ["a/metadata.json", "a/x.bin", "d/metadata.json"] ∧
    (Cleanup.lambda_handler 5 sweepItems none).1 = ⟨200, .cleanupOk 4 2⟩ := by
  have h := cleanup_sweep_exact 5 sweepItems
  exact ⟨h.1.trans (by decide), h.2.2.1.trans (by decide)⟩

/-- Helper: one unfolding step of the get retry loop. -/
theorem s3_get_loop_step (env : Nat → Retry.S3Attempt) (mr r : Nat)
    (s : List Nat) :
    Retry.s3_get_loop env mr r s =
      if r < mr then
        match env r with
        | .ok => ⟨.got, r + 1, s⟩
        | .otherExc => ⟨.raisedOther, r + 1, s⟩
        | .clientErr code =>
            if code == "NoSuchKey" then ⟨.gotNone, r + 1, s⟩
            else if Retry.transient code then
              if r + 1 < mr then
                Retry.s3_get_loop env mr (r + 1) (s ++ [2 ^ (r + 1)])
              else ⟨.raised code, r + 1, s⟩
            else ⟨.raised code, r + 1, s⟩
      else ⟨.fellThrough, r, s⟩ := by
  rw [Retry.s3_get_loop]
  exact dite_eq_ite

/-- Helper: one unfolding step of the put retry loop. -/
theorem s3_put_loop_step (env : Nat → Retry.S3Attempt) (mr r : Nat)
    (s : List Nat) :
    Retry.s3_put_loop env mr r s =
      if r < mr then
        match env r with
        | .ok => ⟨.got, r + 1, s⟩
        | .otherExc => ⟨.raisedOther, r + 1, s⟩
        | .clientErr code =>
            if Retry.transient code then
              if r + 1 < mr then
                Retry.s3_put_loop env mr (r + 1) (s ++ [2 ^ (r + 1)])
              else ⟨.raised code, r + 1, s⟩
            else ⟨.raised code, r + 1, s⟩
      else ⟨.fellThrough, r, s⟩ := by
  rw [Retry.s3_put_loop]
  exact dite_eq_ite

/-- Helper: a transient error code is not `NoSuchKey`. -/
theorem transient_ne_nosuchkey (c : String)
    (h : Retry.transient c = true) : (c == "NoSuchKey") = false := by
  simp only [Retry.transient, Bool.or_eq_true, beq_iff_eq] at h
  rcases h with (h | h) | h <;> subst h <;> decide

/-- Helper: the get retry loop makes at most `mr` raw attempts. -/
theorem s3_get_loop_attempts_le (env : Nat → Retry.S3Attempt) :
    ∀ (fuel mr r : Nat) (s : List Nat), mr ≤ r + fuel → r ≤ mr →
      (Retry.s3_get_loop env mr r s).attempts ≤ mr := by
  intro fuel
  induction fuel with
  | zero =>
      intro mr r s h1 h2
      have hr : ¬ r < mr := by omega
      rw [s3_get_loop_step]
      simp [hr]
      omega
  | succ n ih =>
      intro mr r s h1 h2
      rw [s3_get_loop_step]
      by_cases hr : r < mr
      · simp only [hr, if_true]
        cases env r with
        | ok => simpa using hr
        | otherExc => simpa using hr
        | clientErr code =>
            by_cases hk : (code == "NoSuchKey") = true
            · simp [hk]
              omega
            · by_cases ht : Retry.transient code = true
              · by_cases hlt : r + 1 < mr
                · simp only [hk, Bool.false_eq_true, if_false, ht, if_true,
                    hlt]
                  exact ih mr (r + 1) _ (by omega) (by omega)
                · simp [hk, ht, hlt]
                  omega
              · simp [hk, ht]
                omega
      · simp [hr]
        omega

/-- Helper: the put retry loop makes at most `mr` raw attempts. -/
theorem s3_put_loop_attempts_le (env : Nat → Retry.S3Attempt) :
    ∀ (fuel mr r : Nat) (s : List Nat), mr ≤ r + fuel → r ≤ mr →
      (Retry.s3_put_loop env mr r s).attempts ≤ mr := by
  intro fuel
  induction fuel with
  | zero =>
      intro mr r s h1 h2
      have hr : ¬ r < mr := by omega
      rw [s3_put_loop_step]
      simp [hr]
      omega
  | succ n ih =>
      intro mr r s h1 h2
      rw [s3_put_loop_step]
      by_cases hr : r < mr
      · simp only [hr, if_true]
        cases env r with
        | ok => simpa using hr
        | otherExc => simpa using hr
        | clientErr code =>
            by_cases ht : Retry.transient code = true
            · by_cases hlt : r + 1 < mr
              · simp only [ht, if_true, hlt]
                exact ih mr (r + 1) _ (by omega) (by omega)
              · simp [ht, hlt]
                omega
            · simp [ht]
              omega
      · simp [hr]
        omega

/-- C6: for both retry wrappers — if every raw attempt fails with a
transient class, exactly 3 attempts are made, the sleeps between them are
2^1 and 2^2 seconds, and the last transient error is propagated; a
`NoSuchKey` failure makes the get return `None` on attempt 1 with no sleep
and no retry; any other failure class is propagated from attempt 1 with no
sleep and no retry; and no execution ever makes more than 3 raw attempts. -/
theorem retry_policy (env : Nat → Retry.S3Attempt) :
    ((∀ k, k < 3 → ∃ c, env k = .clientErr c ∧ Retry.transient c = true) →
       (Retry.s3_get_with_retry env).attempts = 3 ∧
       (Retry.s3_get_with_retry env).sleeps = [2, 4] ∧
       ∃ c, env 2 = .clientErr c ∧
         (Retry.s3_get_with_retry env).result = .raised c) ∧
    (env 0 = .clientErr "NoSuchKey" →
       Retry.s3_get_with_retry env = ⟨.gotNone, 1, []⟩) ∧
    (∀ c, env 0 = .clientErr c → Retry.transient c = false →
       c ≠ "NoSuchKey" →
       Retry.s3_get_with_retry env = ⟨.raised c, 1, []⟩) ∧
    (env 0 = .otherExc →
       Retry.s3_get_with_retry env = ⟨.raisedOther, 1, []⟩) ∧
    (Retry.s3_get_with_retry env).attempts ≤ 3 ∧
    ((∀ k, k < 3 → ∃ c, env k = .clientErr c ∧ Retry.transient c = true) →
       (Retry.s3_put_with_retry env).attempts = 3 ∧
       (Retry.s3_put_with_retry env).sleeps = [2, 4] ∧
       ∃ c, env 2 = .clientErr c ∧
         (Retry.s3_put_with_retry env).result = .raised c) ∧
    (∀ c, env 0 = .clientErr c → Retry.transient c = false →
       Retry.s3_put_with_retry env = ⟨.raised c, 1, []⟩) ∧
    (env 0 = .otherExc →
       Retry.s3_put_with_retry env = ⟨.raisedOther, 1, []⟩) ∧
    (Retry.s3_put_with_retry env).attempts ≤ 3 := by
  refine ⟨?_, ?_, ?_, ?_, ?_, ?_, ?_, ?_, ?_⟩
  · intro h
    obtain ⟨c0, h0, t0⟩ := h 0 (by omega)
    obtain ⟨c1, h1, t1⟩ := h 1 (by omega)
    obtain ⟨c2, h2, t2⟩ := h 2 (by omega)
    have e : Retry.s3_get_with_retry env = ⟨.raised c2, 3, [2, 4]⟩ := by
      unfold Retry.s3_get_with_retry Retry.MAX_RETRIES
      rw [s3_get_loop_step]
      simp only [h0, transient_ne_nosuchkey c0 t0, t0, Bool.false_eq_true,
        if_false, if_true, Nat.lt_irrefl, show (0:Nat) < 3 by omega,
        show (0:Nat) + 1 < 3 by omega, List.nil_append]
      rw [s3_get_loop_step]
      simp only [h1, transient_ne_nosuchkey c1 t1, t1, Bool.false_eq_true,
        if_false, if_true, show (1:Nat) < 3 by omega,
        show (1:Nat) + 1 < 3 by omega]
      rw [s3_get_loop_step]
      simp only [h2, transient_ne_nosuchkey c2 t2, t2, Bool.false_eq_true,
        if_false, if_true, show (2:Nat) < 3 by omega,
        show ¬ (2:Nat) + 1 < 3 by omega]
      norm_num
    exact ⟨by rw [e], by rw [e], c2, h2, by rw [e]⟩
  · intro h0
    unfold Retry.s3_get_with_retry Retry.MAX_RETRIES
    rw [s3_get_loop_step]
    simp [h0]
  · intro c h0 ht hk
    unfold Retry.s3_get_with_retry Retry.MAX_RETRIES
    rw [s3_get_loop_step]
    simp [h0, ht, hk]
  · intro h0
    unfold Retry.s3_get_with_retry Retry.MAX_RETRIES
    rw [s3_get_loop_step]
    simp [h0]
  · exact s3_get_loop_attempts_le env 3 3 0 [] (by omega) (by omega)
  · intro h
    obtain ⟨c0, h0, t0⟩ := h 0 (by omega)
    obtain ⟨c1, h1, t1⟩ := h 1 (by omega)
    obtain ⟨c2, h2, t2⟩ := h 2 (by omega)
    have e : Retry.s3_put_with_retry env = ⟨.raised c2, 3, [2, 4]⟩ := by
      unfold Retry.s3_put_with_retry Retry.MAX_RETRIES
      rw [s3_put_loop_step]
      simp only [h0, t0, if_true, show (0:Nat) < 3 by omega,
        show (0:Nat) + 1 < 3 by omega, List.nil_append]
      rw [s3_put_loop_step]
      simp only [h1, t1, if_true, show (1:Nat) < 3 by omega,
        show (1:Nat) + 1 < 3 by omega]
      rw [s3_put_loop_step]
      simp only [h2, t2, if_true, show (2:Nat) < 3 by omega,
        show ¬ (2:Nat) + 1 < 3 by omega]
      norm_num
    exact ⟨by rw [e], by rw [e], c2, h2, by rw [e]⟩
  · intro c h0 ht
    unfold Retry.s3_put_with_retry Retry.MAX_RETRIES
    rw [s3_put_loop_step]
    simp [h0, ht]
  · intro h0
    unfold Retry.s3_put_with_retry Retry.MAX_RETRIES
    rw [s3_put_loop_step]
    simp [h0]
  · exact s3_put_loop_attempts_le env 3 3 0 [] (by omega) (by omega)

/-- An attempt oracle on which every raw S3 call is rate limited. -/
def envAllTransient : Nat → Retry.S3Attempt := fun _ => .clientErr "SlowDown"

/-- Witness for `retry_policy`: under permanent rate limiting the get wrapper
makes 3 attempts sleeping 2 then 4 seconds, and a `NoSuchKey` answer on the
first attempt returns `None` at once. -/
theorem retry_policy_witness :
    (Retry.s3_get_with_retry envAllTransient).attempts = 3 ∧
    (Retry.s3_get_with_retry envAllTransient).sleeps = [2, 4] ∧
    Retry.s3_get_with_retry (fun _ => .clientErr "NoSuchKey") =
      ⟨.gotNone, 1, []⟩ := by
  have h := retry_policy envAllTransient
  have h2 := retry_policy (fun _ => .clientErr "NoSuchKey")
  have htr : ∀ k, k < 3 →
      ∃ c, envAllTransient k = .clientErr c ∧ Retry.transient c = true :=
    fun k _ => ⟨"SlowDown", rfl, by decide⟩
  exact ⟨(h.1 htr).1, (h.1 htr).2.1, h2.2.1 rfl⟩

/-- Helper: every upload response is the generic 500, a 400 validation error
with a structured error body, or a 200 success. -/
theorem upload_response_cases (env : Upload.Env) :
    (Upload.lambda_handler env).1 = resp500 ∨
    ((Upload.lambda_handler env).1.statusCode = 400 ∧
      ∃ m, (Upload.lambda_handler env).1.body = .err m) ∨
    ((Upload.lambda_handler env).1.statusCode = 200 ∧
      ∃ i p e, (Upload.lambda_handler env).1.body = .uploadOk i p e) := by
  have hbody : ∀ b : Upload.ReqBody,
      (Upload.handle_body env b).1 = resp500 ∨
      ((Upload.handle_body env b).1.statusCode = 400 ∧
        ∃ m, (Upload.handle_body env b).1.body = .err m) ∨
      ((Upload.handle_body env b).1.statusCode = 200 ∧
        ∃ i p e, (Upload.handle_body env b).1.body = .uploadOk i p e) := by
    intro b
    by_cases h1 : pyTruthy b.filename
    · by_cases h2 : pyTruthy b.content_type
      · by_cases h3 : pyTruthy b.file_size
        · by_cases h4 : isInstInt b.file_size
          · by_cases h5 : pyIntVal b.file_size > Upload.MAX_FILE_SIZE
            · right; left
              simp [Upload.handle_body, h1, h2, h3, h4, h5]
            · by_cases h6 : Upload.inAllowedContentTypes b.content_type
              · by_cases h7 : env.put_ok
                · by_cases h8 : env.presign_ok
                  · right; right
                    simp [Upload.handle_body, h1, h2, h3, h4, h5, h6, h7, h8]
                  · left
                    simp [Upload.handle_body, h1, h2, h3, h4, h5, h6, h7, h8,
                      resp500]
                · left
                  simp [Upload.handle_body, h1, h2, h3, h4, h5, h6, h7,
                    resp500]
              · right; left
                simp [Upload.handle_body, h1, h2, h3, h4, h5, h6]
          · right; left
            simp [Upload.handle_body, h1, h2, h3, h4]
        · right; left
          simp [Upload.handle_body, h1, h2, h3]
      · right; left
        simp [Upload.handle_body, h1, h2]
    · right; left
      simp [Upload.handle_body, h1]
  cases h : env.event_body with
  | strBad => left; simp [Upload.lambda_handler, h]
  | strGood b =>
      have hb := hbody b
      simp only [Upload.lambda_handler, h] at hb ⊢
      exact hb
  | dict b =>
      have hb := hbody b
      simp only [Upload.lambda_handler, h] at hb ⊢
      exact hb
  | missing =>
      have hb := hbody ⟨.vnone, .vnone, .vnone⟩
      simp only [Upload.lambda_handler, h] at hb ⊢
      exact hb

/-- Helper: every download response is the generic 500, the 400 missing
parameter error, a 404 with a structured error body, or a 200 success. -/
theorem download_response_cases (now : Int) (store : Download.Store)
    (fid? : Option String) (pres : Bool) :
    Download.lambda_handler now store fid? pres = resp500 ∨
    ((Download.lambda_handler now store fid? pres).statusCode = 400 ∧
      ∃ m, (Download.lambda_handler now store fid? pres).body = .err m) ∨
    ((Download.lambda_handler now store fid? pres).statusCode = 404 ∧
      ∃ m, (Download.lambda_handler now store fid? pres).body = .err m) ∨
    ((Download.lambda_handler now store fid? pres).statusCode = 200 ∧
      ∃ u f c e, (Download.lambda_handler now store fid? pres).body =
        .downloadOk u f c e) := by
  cases fid? with
  | none => simp [Download.lambda_handler, resp500]
  | some fid =>
      unfold Download.lambda_handler
      cases hm : store (fid ++ "/metadata.json") with
      | absent => simp [Download.s3_get_outcome, hm, resp500]
      | failing => simp [Download.s3_get_outcome, hm, resp500]
      | present o =>
          cases o with
          | corrupt => simp [Download.s3_get_outcome, hm, resp500]
          | metaDict m =>
              by_cases hx : Download.is_file_expired now m.expiration_time
              · simp [Download.s3_get_outcome, hm, hx, resp500]
              · cases hh : store (fid ++ "/" ++
                    (match m.original_filename with
                     | some s => s | none => "None")) with
                | absent =>
                    simp [Download.s3_get_outcome, hm, hx,
                      Download.head_object, hh, resp500]
                | failing =>
                    simp [Download.s3_get_outcome, hm, hx,
                      Download.head_object, hh, resp500]
                | present o2 =>
                    by_cases hp : pres
                    · simp [Download.s3_get_outcome, hm, hx,
                        Download.head_object, hh, hp, resp500]
                    · simp [Download.s3_get_outcome, hm, hx,
                        Download.head_object, hh, hp, resp500]

/-- C8 counterexample: a sweep-level exception with message `boom` makes the
cleanup handler answer 500 with the exception message interpolated into the
error body, which therefore differs from the generic internal-error body the
other handlers use. -/
theorem cleanup_error_leaks_exception_message :
    (Cleanup.lambda_handler 0 [] (some "boom")).1.body =
      Body.err ("An error occurred: " ++ "boom") ∧
    Body.err ("An error occurred: " ++ "boom") ≠ resp500.body := by
  decide

/-- C8 (amended): any 500 from the upload or download handler is the fixed
generic body with no internal detail; the cleanup handler's sweep-level 500,
however, interpolates the exception message `str(e)` into its error body;
and every non-200 response of all three handlers is structured JSON with an
`error` string and a status code. -/
theorem error_responses_shape (uenv : Upload.Env) (now now2 : Int)
    (store : Download.Store) (fid? : Option String) (pres : Bool)
    (items : List Cleanup.SweepItem) (msg : String) :
    ((Upload.lambda_handler uenv).1.statusCode = 500 →
       (Upload.lambda_handler uenv).1 = resp500) ∧
    ((Download.lambda_handler now store fid? pres).statusCode = 500 →
       Download.lambda_handler now store fid? pres = resp500) ∧
    (Cleanup.lambda_handler now2 items (some msg)).1 =
      ⟨500, .err ("An error occurred: " ++ msg)⟩ ∧
    ((Upload.lambda_handler uenv).1.statusCode ≠ 200 →
       ∃ m, (Upload.lambda_handler uenv).1.body = .err m) ∧
    ((Download.lambda_handler now store fid? pres).statusCode ≠ 200 →
       ∃ m, (Download.lambda_handler now store fid? pres).body = .err m) ∧
    ((Cleanup.lambda_handler now2 items none).1.statusCode ≠ 200 →
       ∃ m, (Cleanup.lambda_handler now2 items none).1.body = .err m) := by
  refine ⟨?_, ?_, rfl, ?_, ?_, ?_⟩
  · intro h5
    rcases upload_response_cases uenv with h | ⟨h4, _⟩ | ⟨h2, _⟩
    · exact h
    · exact absurd (h4.symm.trans h5) (by decide)
    · exact absurd (h2.symm.trans h5) (by decide)
  · intro h5
    rcases download_response_cases now store fid? pres with
      h | ⟨h4, _⟩ | ⟨h4, _⟩ | ⟨h2, _⟩
    · exact h
    · exact absurd (h4.symm.trans h5) (by decide)
    · exact absurd (h4.symm.trans h5) (by decide)
    · exact absurd (h2.symm.trans h5) (by decide)
  · intro hne
    rcases upload_response_cases uenv with h | ⟨_, hm⟩ | ⟨h2, _⟩
    · rw [h]; exact ⟨_, rfl⟩
    · exact hm
    · exact absurd h2 hne
  · intro hne
    rcases download_response_cases now store fid? pres with
      h | ⟨_, hm⟩ | ⟨_, hm⟩ | ⟨h2, _⟩
    · rw [h]; exact ⟨_, rfl⟩
    · exact hm
    · exact hm
    · exact absurd h2 hne
  · intro hne
    exfalso
    apply hne
    simp [Cleanup.lambda_handler, sweep_go_spec]

/-- Environment of a valid upload request whose metadata put fails. -/
def envPutFails : Upload.Env :=
  ⟨.dict ⟨.vstr "a.txt", .vstr "text/plain", .vint 100⟩, "id1", fun _ => 0,
   false, true⟩

/-- Witness for `error_responses_shape`: the failed-put upload 500 carries
the generic body, and a cleanup sweep failure with message `x` carries it
in its body. -/
theorem error_responses_shape_witness :
    (Upload.lambda_handler envPutFails).1 = resp500 ∧
    (Cleanup.lambda_handler 0 [] (some "x")).1 =
      ⟨500, .err ("An error occurred: " ++ "x")⟩ :=
  ⟨(error_responses_shape envPutFails 0 0 storeComplete (some "f") true []
      "x").1 (by decide),
   (error_responses_shape envPutFails 0 0 storeComplete (some "f") true []
      "x").2.2.1⟩

/-- C10: the upload and download handlers are total at their interface — on
every input (any event body, path parameter, store behaviour, presign or put
failure) they return a response whose status code is one of 200/400/(404)/
500, and every failure response carries a structured JSON error body;
exceptions never escape because each modelled raise lands in an `except`
branch that returns one of these responses. -/
theorem handlers_total_interface (uenv : Upload.Env) (now : Int)
    (store : Download.Store) (fid? : Option String) (pres : Bool) :
    ((Upload.lambda_handler uenv).1.statusCode = 200 ∨
     (Upload.lambda_handler uenv).1.statusCode = 400 ∨
     (Upload.lambda_handler uenv).1.statusCode = 500) ∧
    ((Upload.lambda_handler uenv).1.statusCode ≠ 200 →
       ∃ m, (Upload.lambda_handler uenv).1.body = .err m) ∧
    ((Download.lambda_handler now store fid? pres).statusCode = 200 ∨
     (Download.lambda_handler now store fid? pres).statusCode = 400 ∨
     (Download.lambda_handler now store fid? pres).statusCode = 404 ∨
     (Download.lambda_handler now store fid? pres).statusCode = 500) ∧
    ((Download.lambda_handler now store fid? pres).statusCode ≠ 200 →
       ∃ m, (Download.lambda_handler now store fid? pres).body = .err m) := by
  refine ⟨?_, ?_, ?_, ?_⟩
  · rcases upload_response_cases uenv with h | ⟨h4, _⟩ | ⟨h2, _⟩
    · right; right; rw [h]; rfl
    · right; left; exact h4
    · left; exact h2
  · intro hne
    rcases upload_response_cases uenv with h | ⟨_, hm⟩ | ⟨h2, _⟩
    · rw [h]; exact ⟨_, rfl⟩
    · exact hm
    · exact absurd h2 hne
  · rcases download_response_cases now store fid? pres with
      h | ⟨h4, _⟩ | ⟨h4, _⟩ | ⟨h2, _⟩
    · right; right; right; rw [h]; rfl
    · right; left; exact h4
    · right; right; left; exact h4
    · left; exact h2
  · intro hne
    rcases download_response_cases now store fid? pres with
      h | ⟨_, hm⟩ | ⟨_, hm⟩ | ⟨h2, _⟩
    · rw [h]; exact ⟨_, rfl⟩
    · exact hm
    · exact hm
    · exact absurd h2 hne

/-- Witness for `handlers_total_interface`: the failed-put upload and an
expired-item download both produce structured error bodies. -/
theorem handlers_total_interface_witness :
    (∃ m, (Upload.lambda_handler envPutFails).1.body = .err m) ∧
    (∃ m, (Download.lambda_handler 1 storeExpiredOnly (some "f") true).body =
      .err m) :=
  ⟨(handlers_total_interface envPutFails 1 storeExpiredOnly (some "f")
      true).2.1 (by decide),
   (handlers_total_interface envPutFails 1 storeExpiredOnly (some "f")
      true).2.2.2 (by decide)⟩

end FileShare
